import Mathlib

/-!
Verification of the PARAM comms trace-replay engine
(`train/comms/pt/commsTraceReplay.py` and
`train/comms/pt/pytorch_dist_backend.py`) against its specification.

The Python code is shallowly embedded: trace records become a structure of
optional fields (an absent field is `none`), in-place mutation becomes a
returned record, a raised exception becomes an `Option` result, and the
opaque backend handles become natural numbers (the sequence number of the
dispatch that produced them).  Functions named after Python functions are
translated line by line from the source files; definitions whose Python
source is not part of the repository snapshot are marked
`Modelled from the spec:` in their doc comment.
-/

namespace Param

/-- Lowercasing of a single ASCII character, as Python str.lower acts on the
ASCII kind names appearing in traces. -/
def charToLower (ch : Char) : Char :=
  if 65 ≤ ch.toNat ∧ ch.toNat ≤ 90 then Char.ofNat (ch.toNat + 32) else ch

/-- Lowercasing of a string (ASCII), modelling Python str.lower on kind names. -/
def strToLower (s : String) : String :=
  ⟨s.data.map charToLower⟩

/-- Containment of one character list inside another, modelling the Python
substring test `needle in hay` on strings. -/
def listHasSub (needle hay : List Char) : Bool :=
  (List.range (hay.length + 1)).any fun i => needle.isPrefixOf (hay.drop i)

/-- Python substring test `needle in hay` for strings. -/
def strIn (needle hay : String) : Bool :=
  listHasSub needle.data hay.data

/-- Modelled from the spec: `comms_utils.paramToCommName` is imported by both
source files but `comms_utils.py` is not under src/.  Spec section 4.2: kind
names are canonicalized by lowercasing and a kind-alias table
(`alltoallv`/`all2allv` map to `all_to_allv`, etc.); unknown names pass
through unchanged. -/
def paramToCommName (name : String) : String :=
  let n := strToLower name
  let aliases : List (String × String) :=
    [("alltoall", "all_to_all"), ("all2all", "all_to_all"),
     ("alltoallv", "all_to_allv"), ("all2allv", "all_to_allv"),
     ("alltoallbase", "all_to_allv"),
     ("allreduce", "all_reduce"),
     ("allgather", "all_gather"), ("allgatherbase", "all_gather_base"),
     ("reducescatter", "reduce_scatter"),
     ("reducescatterbase", "reduce_scatter_base")]
  match aliases.lookup n with
  | some canonical => canonical
  | none => n

/-- One canonical trace record (the fields of `comms_utils.commsArgs` that the
replay engine reads and writes).  Element counts are natural numbers; spec
section 3 declares all counts non-negative.  An optional field that the trace
did not set is `none`. -/
structure CommsArgs where
  comms : String := ""
  seqnum : Option Nat := none
  req : Option Nat := none
  startTimeNs : Option Nat := none
  markerStack : Option (List String) := none
  worldSize : Option Nat := none
  root : Option Nat := none
  pgId : Option Nat := none
  groupRanks : Option (List Nat) := none
  inMsgSize : Option Nat := none
  outMsgSize : Option Nat := none
  dtype : Option String := none
  inSplit : Option (List Nat) := none
  outSplit : Option (List Nat) := none
  deriving DecidableEq

/-- Raw JSON trace record (spec section 6, trace file format); an absent
optional dict key is `none`. -/
structure RawRecord where
  comms : String := ""
  req : Option Nat := none
  startTime_ns : Option Nat := none
  markers : Option (List String) := none
  world_size : Option Nat := none
  root : Option Nat := none
  pg_id : Option Nat := none
  global_ranks : Option (List Nat) := none
  in_msg_size : Option Nat := none
  out_msg_size : Option Nat := none
  dtype : Option String := none
  in_split : Option (List Nat) := none
  out_split : Option (List Nat) := none
  deriving DecidableEq

/-- One record of `extractCommsInfo` (commsTraceReplay.py 1188-1216); `none`
models a raised KeyError.  Note that line 1212 tests
`newComm.comms in ("all_to_allv")`, which in Python is a SUBSTRING test
against the string "all_to_allv" (the parenthesized expression is not a
tuple), so the in/out-split branch also triggers for kind "all_to_all". -/
def extractOne (cnt : Nat) (r : RawRecord) : Option CommsArgs :=
  let comms := paramToCommName (strToLower r.comms)
  let base : CommsArgs :=
    { comms := comms, seqnum := some cnt, req := r.req,
      startTimeNs := r.startTime_ns, markerStack := r.markers,
      worldSize := r.world_size, root := r.root,
      pgId := r.pg_id, groupRanks := r.global_ranks }
  let step1 : Option CommsArgs :=
    if comms = "wait" ∨ comms = "barrier" ∨ comms = "init" then some base
    else
      match r.in_msg_size, r.out_msg_size, r.dtype with
      | some i, some o, some d =>
        some { base with inMsgSize := some i, outMsgSize := some o, dtype := some d }
      | _, _, _ => none
  match step1 with
  | none => none
  | some c1 =>
    if strIn comms "all_to_allv" then
      match r.in_split, r.out_split with
      | some isp, some osp => some { c1 with inSplit := some isp, outSplit := some osp }
      | _, _ => none
    else some c1

/-- Recursion of `extractCommsInfo` over the raw trace, with the enumerate
counter that becomes `seqnum`. -/
def extractCommsInfoAux (cnt : Nat) : List RawRecord → Option (List CommsArgs)
  | [] => some []
  | r :: rs =>
    match extractOne cnt r with
    | none => none
    | some c =>
      match extractCommsInfoAux (cnt + 1) rs with
      | none => none
      | some cs => some (c :: cs)

/-- `extractCommsInfo` (commsTraceReplay.py 1181-1218): convert a raw trace to
the canonical comms trace. -/
def extractCommsInfo (tr : List RawRecord) : Option (List CommsArgs) :=
  extractCommsInfoAux 0 tr

/-- Required fields of a raw record per the SPEC (sections 4.2 and 6): ops
other than wait/barrier/init carry `in_msg_size`, `out_msg_size`, `dtype`;
`all_to_allv` additionally carries `in_split` and `out_split`.  Stated from
the spec's words for comparison with `extractOne`. -/
def specRequiredFieldsOk (r : RawRecord) : Bool :=
  let comms := paramToCommName (strToLower r.comms)
  ((comms = "wait" ∨ comms = "barrier" ∨ comms = "init") ∨
    (r.in_msg_size.isSome ∧ r.out_msg_size.isSome ∧ r.dtype.isSome)) ∧
  (comms = "all_to_allv" → r.in_split.isSome ∧ r.out_split.isSome)

/-- Recorded world size used by the auto-shrink rescaling (commsTraceReplay.py
519-532): the record's `worldSize` when present, else for `all_to_allv`
inferred from the split lengths, else the current world size.  `none` models
the Python TypeError on `len(None)` when an `all_to_allv` record carries no
split lists at all. -/
def shrinkRealWorldSize (commOp : String) (curWorldSize : Nat) (c : CommsArgs) :
    Option Nat :=
  match c.worldSize with
  | some w => some w
  | none =>
    if commOp = "all_to_allv" then
      match c.inSplit, c.outSplit with
      | some isp, some osp =>
        some (if 0 < isp.length then isp.length
              else if 0 < osp.length then osp.length else curWorldSize)
      | _, _ => none
    else some curWorldSize

/-- Auto-shrink size rescaling of `prepComms` (commsTraceReplay.py 501-556) on
the trace record.  wait/barrier records return early and are untouched;
other records have their element counts rescaled in place (here: on the
returned record), and these counts drive the buffer allocation (spec 4.5).
`none` models a raised exception on a missing field. -/
def prepCommsShrink (curWorldSize : Nat) (c : CommsArgs) : Option CommsArgs :=
  let commOp := paramToCommName c.comms
  if commOp = "wait" ∨ commOp = "barrier" then some c
  else
    match shrinkRealWorldSize commOp curWorldSize c with
    | none => none
    | some realWS =>
      match c.inMsgSize, c.outMsgSize with
      | some inSize, some outSize =>
        let newIn := inSize / realWS * curWorldSize
        let newOut := outSize / realWS * curWorldSize
        if commOp = "all_to_allv" then
          let osp := (c.outSplit.getD []).take curWorldSize
          let isp := (c.inSplit.getD []).take curWorldSize
          let newIn2 := if 0 < isp.length then isp.sum else newIn
          let newOut2 := if 0 < osp.length then osp.sum else newOut
          some { c with inSplit := some isp, outSplit := some osp,
                        inMsgSize := some newIn2, outMsgSize := some newOut2 }
        else if commOp = "all_gather" then
          some { c with inMsgSize := some newIn,
                        outMsgSize := some (newIn * curWorldSize) }
        else
          some { c with inMsgSize := some newIn, outMsgSize := some newOut }
      | _, _ => none

/-- Python `round(num / den)`: nearest integer with ties to even, modelled
exactly on the rational num/den (the Python source rounds the float quotient,
which is exact at the magnitudes exercised here). -/
def pyRoundDiv (num den : Nat) : Nat :=
  let q := num / den
  let r := num % den
  if 2 * r < den then q
  else if den < 2 * r then q + 1
  else if q % 2 = 0 then q else q + 1

/-- `rebalanceSplit` (commsTraceReplay.py 423-456): under policy "equal" the
record's sizes and splits are rewritten from the cross-rank agreed value
(the content of `ipTensor[0]` after the all_reduce, passed here as `agreed`);
any other policy leaves the record unchanged (only an error is logged). -/
def rebalanceSplit (policy : String) (worldSize agreed : Nat) (c : CommsArgs) :
    CommsArgs :=
  if policy = "equal" then
    let newInSize := worldSize * worldSize * pyRoundDiv agreed (worldSize * worldSize)
    let inMsg := newInSize / worldSize
    { c with inMsgSize := some inMsg, outMsgSize := some inMsg,
             inSplit := some (List.replicate worldSize (inMsg / worldSize)),
             outSplit := some (List.replicate worldSize (inMsg / worldSize)) }
  else c

/-- Truncated distance on naturals, used to state that a rounding result is a
nearest multiple. -/
def natDist (x y : Nat) : Nat := (x - y) + (y - x)

/-- Backend process-group handle: the default (world) group or a newly created
group with an explicit member list. -/
inductive PG where
  | default : PG
  | newPG (ranks : List Nat) : PG
  deriving DecidableEq

/-- First-match association lookup, modelling Python dict indexing (keys are
unique in all uses below). -/
def assocLookup {α : Type} (k : Nat) : List (Nat × α) → Option α
  | [] => none
  | p :: ps => if p.1 = k then some p.2 else assocLookup k ps

/-- Group-creation loop of `initialize_backend` (pytorch_dist_backend.py
852-874): an oversized recorded group CLEARS everything accumulated so far and
breaks out of the loop; a full-world group is the default group; any other
group is newly created. -/
def buildGroupsAux (worldSize : Nat) :
    List (Nat × List Nat) → List (Nat × PG) → List (Nat × PG)
  | [], acc => acc
  | (pgId, ranks) :: rest, acc =>
    if worldSize < ranks.length then []
    else
      buildGroupsAux worldSize rest
        (acc ++ [(pgId, if ranks.length = worldSize then PG.default else PG.newPG ranks)])

/-- Process-group table built by `initialize_backend` (852-874): after the
loop, an empty table is replaced by the default group under id 0. -/
def initializeGroups (worldSize : Nat) (groupRanks : List (Nat × List Nat)) :
    List (Nat × PG) :=
  let gs := buildGroupsAux worldSize groupRanks []
  if gs = [] then [(0, PG.default)] else gs

/-- Group selection of `getCommGroupInfo` / `prepComms` (commsTraceReplay.py
476-483 and 506-513): a recorded pg id is resolved through the table only when
auto-shrink is off; otherwise the default group is used.  `none` models a
KeyError on an unknown pg id. -/
def selectGroup (shrink : Bool) (groups : List (Nat × PG)) (pgId : Option Nat) :
    Option PG :=
  match pgId, shrink with
  | some pid, false => assocLookup pid groups
  | _, _ => some PG.default

/-- Index of a rank in a member list, or `none`. -/
def rankIndexOf (g : Nat) : List Nat → Option Nat
  | [] => none
  | x :: xs => if x = g then some 0 else (rankIndexOf g xs).map (· + 1)

/-- Modelled backend primitive `get_group_rank` (pytorch_dist_backend.py
691-692 delegates to the opaque collective library, spec section 4.1): the
caller's index inside the group's member list, and -1 when the caller is not
a member (the source's own comment at commsTraceReplay.py 471-474 documents
the -1 convention). -/
def groupRankOf (globalRank : Nat) : PG → Int
  | PG.default => globalRank
  | PG.newPG ranks =>
    match rankIndexOf globalRank ranks with
    | some i => i
    | none => -1

/-- Outcome of one op of the measured pass: whether its collective was
dispatched to the backend, and whether a per-kind latency entry was
appended. -/
structure OpOutcome where
  dispatched : Bool
  latencyRecorded : Bool
  deriving DecidableEq

/-- Per-op control flow of `replayTrace` (commsTraceReplay.py 726-801)
combined with `runComms` (659-671): an op is skipped (no backend call, no
latency entry) when its kind is not in the allow list or the local rank is
not in the group; otherwise the collective is dispatched only when the
backend's collectiveFunc table supports the kind, while a per-kind latency
entry is recorded unconditionally (line 783). -/
def replayOpOutcome (allowList supported : List String) (groupRank : Int)
    (c : CommsArgs) : OpOutcome :=
  let collName := paramToCommName c.comms
  if collName ∉ allowList ∨ groupRank = -1 then ⟨false, false⟩
  else ⟨decide (collName ∈ supported), true⟩

/-- One measured pass of `replayTrace` over the trace: each op resolves its
group (`none` models a KeyError) and yields its dispatch/record outcome. -/
def replayTraceEvents (allowList supported : List String) (shrink : Bool)
    (groups : List (Nat × PG)) (globalRank : Nat) :
    List CommsArgs → Option (List (CommsArgs × OpOutcome))
  | [] => some []
  | c :: rest =>
    match selectGroup shrink groups c.pgId with
    | none => none
    | some g =>
      match replayTraceEvents allowList supported shrink groups globalRank rest with
      | none => none
      | some tail =>
        some ((c, replayOpOutcome allowList supported (groupRankOf globalRank g) c) :: tail)

/-- Per-kind size recording of `initTraceStat` (commsTraceReplay.py 383-401):
every op in the bounded trace that carries an input size contributes its
input size to the per-kind size lists, regardless of allow list or group
membership. -/
def initTraceStatSizes (trace : List CommsArgs) (maxMsgCnt : Nat) :
    List (String × Nat) :=
  (trace.take maxMsgCnt).filterMap fun c =>
    match c.inMsgSize with
    | some i => some (paramToCommName c.comms, i)
    | none => none

/-- Latency bookkeeping of `runComms` (commsTraceReplay.py 683-695): latency
is the collective timer in microseconds; in blocking mode the post-barrier
interval (nanoseconds) is added to the global latency; in non-blocking mode
the global latency equals the latency. -/
def runCommsLatency (isBlocking : Bool) (collTimeUS barrierIntervalNS : ℚ) :
    ℚ × ℚ :=
  let latency := collTimeUS
  if isBlocking then (latency, latency + barrierIntervalNS / 1000)
  else (latency, latency)

/-- Backend request handle: the sequence number of the dispatch that produced
it (handles are opaque to the engine, so identity is all that matters). -/
abbrev Handle := Nat

/-- Async bookkeeping held in collectiveArgs: the FIFO `waitObj` of
outstanding requests, the id-keyed registry `waitObjIds` (whose values may be
Python None, e.g. for send/recv), and the last recorded `collectiveId`. -/
structure AsyncState where
  waitObj : List Handle := []
  waitObjIds : List (Nat × Option Handle) := []
  collectiveId : Option Nat := none
  deriving DecidableEq

/-- `complete_accel_ops` (pytorch_dist_backend.py 513-524): wait on every
handle in the FIFO, then clear BOTH the FIFO and the id registry; the devSync
flag only controls the device synchronization, not the waiting or the
clearing.  Returns the new state and the handles waited on, in order. -/
def complete_accel_ops (s : AsyncState) (_devSync : Bool) :
    AsyncState × List Handle :=
  ({ s with waitObj := [], waitObjIds := [] }, s.waitObj)

/-- `complete_single_op` (pytorch_dist_backend.py 527-535): pop the first
FIFO handle and wait on it, if any. -/
def complete_single_op (s : AsyncState) : AsyncState × List Handle :=
  match s.waitObj with
  | [] => (s, [])
  | h :: rest => ({ s with waitObj := rest }, [h])

/-- Backend `wait` (pytorch_dist_backend.py 537-548): with an empty id
registry fall back to `complete_single_op`; otherwise wait on the registry
entry matching the last recorded collectiveId, if present and not None; the
entry is not removed. -/
def backendWait (s : AsyncState) : AsyncState × List Handle :=
  if s.waitObjIds = [] then complete_single_op s
  else
    match s.collectiveId with
    | some cid =>
      match assocLookup cid s.waitObjIds with
      | some (some h) => (s, [h])
      | _ => (s, [])
    | none => (s, [])

/-- Python dict assignment `d[k] = v`: replace an existing binding in place or
append a new one. -/
def insertAssoc (l : List (Nat × Option Handle)) (k : Nat) (v : Option Handle) :
    List (Nat × Option Handle) :=
  match assocLookup k l with
  | some _ => l.map fun p => if p.1 = k then (k, v) else p
  | none => l ++ [(k, v)]

/-- How a supported collectiveFunc entry behaves when runComms invokes it as
collectiveFunc[collName](collectiveArgs, retFlag=True)
(commsTraceReplay.py 664-666): `wait` runs the registry logic and returns
None (pytorch_dist_backend.py 537-548); the pt2pt entry is the base-class
noop (790-792), returning None; send/recv/isend/irecv (462-502) REQUIRE a
peer-rank positional argument that runComms never passes, so dispatching them
from runComms raises TypeError; every other collective takes
(collectiveArgs, retFlag, pair), appends its request to the FIFO and returns
it exactly when dispatched asynchronously (93-444). -/
inductive DispatchKind where
  | waitOp | noopOp | p2pRank | collective
  deriving DecidableEq

/-- Classification of a supported collective name into its dispatch
behaviour under runComms's calling convention. -/
def dispatchClass (collName : String) : DispatchKind :=
  if collName = "wait" then DispatchKind.waitOp
  else if collName = "pt2pt" then DispatchKind.noopOp
  else if collName = "send" ∨ collName = "recv" ∨
      collName = "isend" ∨ collName = "irecv" then DispatchKind.p2pRank
  else DispatchKind.collective

/-- Result of pushing one op through `runComms`: the async state after the
op, the value of the Python local `retObj` (`none` models the name being
unbound because the kind was unsupported; `some none` models Python None),
the handles awaited by the op's own wait dispatch, and the handles awaited by
the trailing `complete_accel_ops`. -/
structure StepResult where
  state : AsyncState
  retObj : Option (Option Handle)
  waitAwaited : List Handle
  completeAwaited : List Handle
  deriving DecidableEq

/-- One op through `runComms` (commsTraceReplay.py 648-695) in the
async-registry dimension: record collectiveId when the op carries a req
(661-662, only reached for supported kinds), dispatch (664-671; the fresh
backend handle of dispatch number `seq` is `seq`), `complete_accel_ops` with
devSync = is_blocking (673-675), then store `waitObjIds[req] = retObj` for
non-blocking non-wait ops (680-681).  The overall result is `none` when the
Python code raises: TypeError when dispatching a send/recv/isend/irecv entry
without its required peer-rank argument, or NameError when the store at
680-681 reads the retObj name an unsupported kind left unbound. -/
def runCommsStep (isBlocking : Bool) (supported : List String) (seq : Nat)
    (c : CommsArgs) (s0 : AsyncState) : Option StepResult :=
  let collName := paramToCommName c.comms
  let asyncOp := !isBlocking
  let dres : Option (AsyncState × Option (Option Handle) × List Handle) :=
    if collName ∈ supported then
      let s1 := match c.req with
        | some r => { s0 with collectiveId := some r }
        | none => s0
      match dispatchClass collName with
      | DispatchKind.waitOp =>
        let w := backendWait s1
        some (w.1, some none, w.2)
      | DispatchKind.noopOp => some (s1, some none, [])
      | DispatchKind.p2pRank => none
      | DispatchKind.collective =>
        if asyncOp then
          some ({ s1 with waitObj := s1.waitObj ++ [seq] }, some (some seq), [])
        else some (s1, some none, [])
    else some (s0, none, [])
  match dres with
  | none => none
  | some dres =>
    let comp := complete_accel_ops dres.1 isBlocking
    if c.req.isSome && asyncOp && (collName != "wait") then
      match c.req, dres.2.1 with
      | some r, some v =>
        some ⟨{ comp.1 with waitObjIds := insertAssoc comp.1.waitObjIds r v },
              dres.2.1, dres.2.2, comp.2⟩
      | _, _ => none
    else
      some ⟨comp.1, dres.2.1, dres.2.2, comp.2⟩

/-- Sequential replay of a trace through `runCommsStep`, numbering dispatches
from `seq` upward. -/
def runReplayAux (isBlocking : Bool) (supported : List String) :
    Nat → List CommsArgs → AsyncState → Option (List StepResult)
  | _, [], _ => some []
  | seq, c :: rest, s =>
    match runCommsStep isBlocking supported seq c s with
    | none => none
    | some r =>
      match runReplayAux isBlocking supported (seq + 1) rest r.state with
      | none => none
      | some rs => some (r :: rs)

/-- Replay of a whole trace from the initial (empty) async state. -/
def runReplay (isBlocking : Bool) (supported : List String)
    (trace : List CommsArgs) : Option (List StepResult) :=
  runReplayAux isBlocking supported 0 trace {}

/-- Non-blocking all_reduce with req id 7 (a collective-class op whose
dispatch from runComms succeeds and returns a request handle). -/
def c1A : CommsArgs :=
  { comms := "all_reduce", req := some 7, inMsgSize := some 128,
    outMsgSize := some 128, dtype := some "Int", worldSize := some 2 }

/-- A second non-blocking all_reduce, req id 8, replayed between c1A and its
wait. -/
def c1B : CommsArgs :=
  { comms := "all_reduce", req := some 8, inMsgSize := some 128,
    outMsgSize := some 128, dtype := some "Int", worldSize := some 2 }

/-- The wait op carrying req id 7, meant to join c1A. -/
def c1W : CommsArgs := { comms := "wait", req := some 7, worldSize := some 2 }

/-- Supported kinds for the async-correlation runs. -/
def c1supported : List String := ["all_reduce", "wait"]

/-- An all_to_allv record with empty splits, as in the trace format example of
benchTime (commsTraceReplay.py 870-883). -/
def c2rec : CommsArgs :=
  { comms := "all_to_allv", inMsgSize := some 3, outMsgSize := some 3,
    inSplit := some [], outSplit := some [], dtype := some "Int",
    worldSize := some 2 }

/-- An all_to_allv record used to instantiate the amended rebalance theorem. -/
def c2wrec : CommsArgs :=
  { comms := "all_to_allv", inMsgSize := some 3, outMsgSize := some 3,
    inSplit := some [1, 2], outSplit := some [1, 2], dtype := some "Int",
    worldSize := some 2 }

/-- Spec scenario S4: all_gather, recorded world 8, input 1024 elements. -/
def c3wrec : CommsArgs :=
  { comms := "all_gather", worldSize := some 8, inMsgSize := some 1024,
    outMsgSize := some 1024, dtype := some "Float" }

/-- An all_to_allv record whose truncated split sum (1+2+3+4 = 10) is not a
multiple of the live world size 4. -/
def c4rec : CommsArgs :=
  { comms := "all_to_allv", worldSize := some 8, inMsgSize := some 36,
    outMsgSize := some 36, dtype := some "Int",
    inSplit := some [1, 2, 3, 4, 5, 6, 7, 8],
    outSplit := some [1, 2, 3, 4, 5, 6, 7, 8] }

/-- An all_reduce record for the auto-shrink invariant witness. -/
def c4wrec : CommsArgs :=
  { comms := "all_reduce", worldSize := some 8, inMsgSize := some 1030,
    outMsgSize := some 1030, dtype := some "Int" }

/-- The record c4wrec after auto-shrink with live world 4:
1030 / 8 * 4 = 512 elements each way. -/
def c4wres : CommsArgs :=
  { comms := "all_reduce", worldSize := some 8, inMsgSize := some 512,
    outMsgSize := some 512, dtype := some "Int" }

/-- A well-formed trace op (sizes and dtype present, so the normalizer
produces it and prepComms succeeds) whose kind the backend does not
support. -/
def c5rec : CommsArgs :=
  { comms := "exotic", inMsgSize := some 8, outMsgSize := some 8,
    dtype := some "Int" }

/-- A size-carrying op used to show first-pass size stats ignore the allow
list. -/
def c5sized : CommsArgs :=
  { comms := "all_reduce", inMsgSize := some 5, outMsgSize := some 5,
    dtype := some "Int" }

/-- An ordinary allowed, member, supported op for the replay witness. -/
def c5wrec : CommsArgs :=
  { comms := "all_reduce", inMsgSize := some 4, outMsgSize := some 4,
    dtype := some "Int" }

/-- A syntactically valid all_to_all record (per the spec, splits are required
only for all_to_allv). -/
def c8bad : RawRecord :=
  { comms := "all_to_all", in_msg_size := some 64, out_msg_size := some 64,
    dtype := some "Int" }

/-- An all_to_allv record fed to the rebalance step with an unknown policy. -/
def c9rec : CommsArgs :=
  { comms := "all_to_allv", inMsgSize := some 10, outMsgSize := some 20,
    inSplit := some [4, 6], outSplit := some [12, 8], dtype := some "Int",
    worldSize := some 2 }

/-- One non-blocking all_reduce carrying a req id, for the registry-size
witness. -/
def c10A : CommsArgs :=
  { comms := "all_reduce", req := some 3, inMsgSize := some 16,
    outMsgSize := some 16, dtype := some "Int" }

/-- The step results of replaying the one-op trace [c10A]. -/
def c10rs : List StepResult :=
  (runReplay false ["all_reduce", "wait"] [c10A]).getD []

/-- Helper: `d * pyRoundDiv a d` is a multiple of `d` nearest to `a`; no other
multiple `d * k` is strictly closer. -/
theorem pyRoundDiv_nearest (a d k : Nat) (hd : 0 < d) :
    natDist (d * pyRoundDiv a d) a ≤ natDist (d * k) a := by
  have hsucc : d * (a / d + 1) = d * (a / d) + d := Nat.mul_succ d (a / d)
  have hXcases : d * k ≤ d * (a / d) ∨ d * (a / d) + d ≤ d * k := by
    rcases le_or_lt k (a / d) with hk | hk
    · exact Or.inl (Nat.mul_le_mul_left d hk)
    · exact Or.inr (hsucc ▸ Nat.mul_le_mul_left d hk)
  have hmod : d * (a / d) + a % d = a := Nat.div_add_mod a d
  have hrd : a % d < d := Nat.mod_lt a hd
  simp only [pyRoundDiv, natDist]
  split_ifs with h1 h2 h3 <;> [skip; rw [hsucc]; skip; rw [hsucc]] <;>
  · generalize hY : d * (a / d) = Y at hXcases hmod
    generalize hX : d * k = X at hXcases
    omega

/-- C9 (confirmed): invoking the rebalance step with any policy other than
"equal" leaves the trace record completely unchanged (commsTraceReplay.py
432-456 only mutates in the "equal" branch; the else branch merely logs). -/
theorem c9_unknown_policy_noop (policy : String) (worldSize agreed : Nat)
    (c : CommsArgs) (h : policy ≠ "equal") :
    rebalanceSplit policy worldSize agreed c = c := by
  simp [rebalanceSplit, h]

/-- Witness for C9 at the concrete policy "fancy". -/
theorem c9_unknown_policy_noop_witness :
    rebalanceSplit "fancy" 2 99 c9rec = c9rec :=
  c9_unknown_policy_noop "fancy" 2 99 c9rec (by decide)

/-- C2 counterexample: with world size 2 and agreed value 7, the code computes
newInSize = 4 * round(7 / 4) = 8 and in_msg_elems = 4 (Python round, nearest),
whereas rounding DOWN to the nearest multiple of W*W as the claim states would
give newInSize = 4 and in_msg_elems = 2. -/
theorem c2_rebalance_round_counterexample :
    (rebalanceSplit "equal" 2 7 c2rec).inMsgSize = some 4 ∧
    2 * 2 * (7 / (2 * 2)) / 2 = 2 ∧ (4 : Nat) ≠ 2 := by decide

/-- C2 amended: under policy "equal" with world size W, the record's
in/out element counts both become newInSize / W and both splits become W
equal shares, where newInSize = W * W * round(agreed / (W * W)) is a multiple
of W*W NEAREST to the agreed all_reduce value (ties to even), not the one
rounded down. -/
theorem c2_rebalance_equal (W agreed : Nat) (c : CommsArgs) (hW : 0 < W) :
    rebalanceSplit "equal" W agreed c =
      { c with
        inMsgSize := some (W * pyRoundDiv agreed (W * W)),
        outMsgSize := some (W * pyRoundDiv agreed (W * W)),
        inSplit := some (List.replicate W (pyRoundDiv agreed (W * W))),
        outSplit := some (List.replicate W (pyRoundDiv agreed (W * W))) } ∧
    (List.replicate W (pyRoundDiv agreed (W * W))).sum =
      W * pyRoundDiv agreed (W * W) ∧
    W * W ∣ W * W * pyRoundDiv agreed (W * W) ∧
    ∀ k : Nat, natDist (W * W * pyRoundDiv agreed (W * W)) agreed ≤
      natDist (W * W * k) agreed := by
  have hm1 : W * W * pyRoundDiv agreed (W * W) / W = W * pyRoundDiv agreed (W * W) := by
    rw [Nat.mul_assoc]
    exact Nat.mul_div_cancel_left _ hW
  have hm2 : W * pyRoundDiv agreed (W * W) / W = pyRoundDiv agreed (W * W) :=
    Nat.mul_div_cancel_left _ hW
  refine ⟨?_, ?_, dvd_mul_right _ _,
    fun k => pyRoundDiv_nearest agreed (W * W) k (Nat.mul_pos hW hW)⟩
  · simp only [rebalanceSplit, if_pos, hm1, hm2]
  · simp [List.sum_replicate, smul_eq_mul]

/-- Witness for C2 amended at W = 2, agreed = 7 (newInSize = 8, counts 4,
splits [2, 2]). -/
theorem c2_rebalance_equal_witness :
    rebalanceSplit "equal" 2 7 c2wrec =
      { c2wrec with
        inMsgSize := some (2 * pyRoundDiv 7 (2 * 2)),
        outMsgSize := some (2 * pyRoundDiv 7 (2 * 2)),
        inSplit := some (List.replicate 2 (pyRoundDiv 7 (2 * 2))),
        outSplit := some (List.replicate 2 (pyRoundDiv 7 (2 * 2))) } ∧
    (List.replicate 2 (pyRoundDiv 7 (2 * 2))).sum = 2 * pyRoundDiv 7 (2 * 2) ∧
    2 * 2 ∣ 2 * 2 * pyRoundDiv 7 (2 * 2) ∧
    ∀ k : Nat, natDist (2 * 2 * pyRoundDiv 7 (2 * 2)) 7 ≤ natDist (2 * 2 * k) 7 :=
  c2_rebalance_equal 2 7 c2wrec (by decide)

/-- C6 (confirmed): in blocking mode the recorded latency is bounded by the
global latency, which exceeds it exactly by the post-barrier interval; in
non-blocking mode the two recorded values coincide (runComms 683-695). -/
theorem c6_latency_accounting (isBlocking : Bool) (collTimeUS barrierIntervalNS : ℚ)
    (hb : 0 ≤ barrierIntervalNS) :
    (runCommsLatency isBlocking collTimeUS barrierIntervalNS).1 ≤
      (runCommsLatency isBlocking collTimeUS barrierIntervalNS).2 ∧
    (isBlocking = true →
      (runCommsLatency isBlocking collTimeUS barrierIntervalNS).2 =
        (runCommsLatency isBlocking collTimeUS barrierIntervalNS).1 +
          barrierIntervalNS / 1000) ∧
    (isBlocking = false →
      (runCommsLatency isBlocking collTimeUS barrierIntervalNS).1 =
        (runCommsLatency isBlocking collTimeUS barrierIntervalNS).2) := by
  have hq : (0 : ℚ) ≤ barrierIntervalNS / 1000 := by positivity
  cases isBlocking with
  | false => simp [runCommsLatency]
  | true =>
    simp [runCommsLatency]
    linarith

/-- Witness for C6 at blocking mode, collective time 5 us, barrier 100 ns. -/
theorem c6_latency_accounting_witness :
    (runCommsLatency true 5 100).1 ≤ (runCommsLatency true 5 100).2 ∧
    (true = true →
      (runCommsLatency true 5 100).2 = (runCommsLatency true 5 100).1 + 100 / 1000) ∧
    (true = false →
      (runCommsLatency true 5 100).1 = (runCommsLatency true 5 100).2) :=
  c6_latency_accounting true 5 100 (by norm_num)

/-- Helper: one oversized entry anywhere in the recorded group list makes the
creation loop of initialize_backend return the empty table (the clear erases
groups added before it, the break skips the ones after it). -/
theorem buildGroupsAux_oversized (W : Nat) :
    ∀ (grs : List (Nat × List Nat)) (acc : List (Nat × PG)),
      (∃ e ∈ grs, W < e.2.length) → buildGroupsAux W grs acc = [] := by
  intro grs
  induction grs with
  | nil =>
    intro acc h
    simp at h
  | cons p rest ih =>
    intro acc h
    rcases p with ⟨pgId, ranks⟩
    by_cases hp : W < ranks.length
    · simp [buildGroupsAux, hp]
    · have hrest : ∃ e ∈ rest, W < e.2.length := by
        rcases h with ⟨e, he, hlen⟩
        rcases List.mem_cons.mp he with rfl | hmem
        · exact absurd hlen hp
        · exact ⟨e, hmem, hlen⟩
      simp only [buildGroupsAux, if_neg hp]
      exact ih _ hrest

/-- C7 counterexample: with live world 4, group 1 = [0, 1] fits (2 members)
and per the claim should remain available, but the oversized group
2 = [0..5] clears the WHOLE table, so only the default group at id 0
survives and group 1 resolves to nothing. -/
theorem c7_auto_shrink_groups_counterexample :
    initializeGroups 4 [(1, [0, 1]), (2, [0, 1, 2, 3, 4, 5])] = [(0, PG.default)] ∧
    assocLookup 1 (initializeGroups 4 [(1, [0, 1]), (2, [0, 1, 2, 3, 4, 5])]) = none := by
  decide

/-- C7 amended: when any recorded group is larger than the live world, the
whole process-group table is discarded and replaced by the default group
under id 0 (not just the oversized group); and with auto-shrink enabled every
op resolves to the default group at prepare time regardless of its pg id. -/
theorem c7_auto_shrink_groups (W : Nat) (grs : List (Nat × List Nat))
    (h : ∃ e ∈ grs, W < e.2.length) :
    initializeGroups W grs = [(0, PG.default)] ∧
    ∀ (gs : List (Nat × PG)) (pid : Option Nat),
      selectGroup true gs pid = some PG.default := by
  constructor
  · unfold initializeGroups
    rw [buildGroupsAux_oversized W grs [] h]
    rfl
  · intro gs pid
    cases pid <;> rfl

/-- Witness for C7 amended: live world 2, one recorded group of 3 ranks. -/
theorem c7_auto_shrink_groups_witness :
    initializeGroups 2 [(1, [0, 1, 2])] = [(0, PG.default)] ∧
    ∀ (gs : List (Nat × PG)) (pid : Option Nat),
      selectGroup true gs pid = some PG.default :=
  c7_auto_shrink_groups 2 [(1, [0, 1, 2])] ⟨(1, [0, 1, 2]), by decide, by decide⟩

/-- C8 (code bug): an all_to_all record carrying its required fields (sizes
and dtype; splits are required only for all_to_allv, spec sections 4.2 and 6)
is syntactically valid, yet the normalizer produces NO record for it:
commsTraceReplay.py 1212 tests `newComm.comms in ("all_to_allv")`, which is a
substring test against the string "all_to_allv" rather than membership in a
tuple, "all_to_all" is a substring of "all_to_allv", and the subsequent
`curComm["in_split"]` raises KeyError. -/
theorem c8_all_to_all_split_keyerror :
    specRequiredFieldsOk c8bad = true ∧
    strIn "all_to_all" "all_to_allv" = true ∧
    extractCommsInfo [c8bad] = none := by decide

/-- Helper: evaluation of prepCommsShrink on a sized all_to_allv record. -/
theorem prepCommsShrink_a2av (curW : Nat) (c : CommsArgs) (i o wrec : Nat)
    (h2 : paramToCommName c.comms = "all_to_allv")
    (hrec : shrinkRealWorldSize "all_to_allv" curW c = some wrec)
    (hi : c.inMsgSize = some i) (ho : c.outMsgSize = some o) :
    prepCommsShrink curW c = some
      { c with inSplit := some ((c.inSplit.getD []).take curW),
               outSplit := some ((c.outSplit.getD []).take curW),
               inMsgSize := some (if 0 < ((c.inSplit.getD []).take curW).length
                 then ((c.inSplit.getD []).take curW).sum else i / wrec * curW),
               outMsgSize := some (if 0 < ((c.outSplit.getD []).take curW).length
                 then ((c.outSplit.getD []).take curW).sum else o / wrec * curW) } := by
  simp [prepCommsShrink, h2, hrec, hi, ho]

/-- Helper: evaluation of prepCommsShrink on a sized all_gather record. -/
theorem prepCommsShrink_gather (curW : Nat) (c : CommsArgs) (i o wrec : Nat)
    (hg : paramToCommName c.comms = "all_gather")
    (hrec : shrinkRealWorldSize "all_gather" curW c = some wrec)
    (hi : c.inMsgSize = some i) (ho : c.outMsgSize = some o) :
    prepCommsShrink curW c = some
      { c with inMsgSize := some (i / wrec * curW),
               outMsgSize := some (i / wrec * curW * curW) } := by
  simp [prepCommsShrink, hg, hrec, hi, ho]

/-- Helper: evaluation of prepCommsShrink on any other sized record. -/
theorem prepCommsShrink_other (curW : Nat) (c : CommsArgs) (i o wrec : Nat)
    (hw : paramToCommName c.comms ≠ "wait")
    (hb : paramToCommName c.comms ≠ "barrier")
    (h2 : paramToCommName c.comms ≠ "all_to_allv")
    (hg : paramToCommName c.comms ≠ "all_gather")
    (hrec : shrinkRealWorldSize (paramToCommName c.comms) curW c = some wrec)
    (hi : c.inMsgSize = some i) (ho : c.outMsgSize = some o) :
    prepCommsShrink curW c = some
      { c with inMsgSize := some (i / wrec * curW),
               outMsgSize := some (o / wrec * curW) } := by
  simp [prepCommsShrink, hw, hb, h2, hg, hrec, hi, ho]

/-- C3 (confirmed): auto-shrink rescaling.  For a sized op (not wait/barrier)
with recorded input count i and output count o, the rescaled input count is
i / W_rec * W_live and the output likewise, where W_rec is the recorded world
size (with the split-length fallback for all_to_allv, per
shrinkRealWorldSize); for all_to_allv the splits are truncated to W_live
entries and, when non-empty, re-summed to give the counts; for all_gather the
output count is the new input count times W_live. -/
theorem c3_auto_shrink_rescale (curW : Nat) (c : CommsArgs) (i o wrec : Nat)
    (hw : paramToCommName c.comms ≠ "wait")
    (hb : paramToCommName c.comms ≠ "barrier")
    (hrec : shrinkRealWorldSize (paramToCommName c.comms) curW c = some wrec)
    (hi : c.inMsgSize = some i) (ho : c.outMsgSize = some o) :
    ∃ c', prepCommsShrink curW c = some c' ∧
      (paramToCommName c.comms = "all_to_allv" →
        c'.inSplit = some ((c.inSplit.getD []).take curW) ∧
        c'.outSplit = some ((c.outSplit.getD []).take curW) ∧
        c'.inMsgSize = some (if 0 < ((c.inSplit.getD []).take curW).length
          then ((c.inSplit.getD []).take curW).sum else i / wrec * curW) ∧
        c'.outMsgSize = some (if 0 < ((c.outSplit.getD []).take curW).length
          then ((c.outSplit.getD []).take curW).sum else o / wrec * curW)) ∧
      (paramToCommName c.comms = "all_gather" →
        c'.inMsgSize = some (i / wrec * curW) ∧
        c'.outMsgSize = some (i / wrec * curW * curW)) ∧
      (paramToCommName c.comms ≠ "all_to_allv" →
        paramToCommName c.comms ≠ "all_gather" →
        c'.inMsgSize = some (i / wrec * curW) ∧
        c'.outMsgSize = some (o / wrec * curW)) := by
  by_cases h2 : paramToCommName c.comms = "all_to_allv"
  · have hrec2 : shrinkRealWorldSize "all_to_allv" curW c = some wrec := h2 ▸ hrec
    exact ⟨_, prepCommsShrink_a2av curW c i o wrec h2 hrec2 hi ho,
      fun _ => ⟨rfl, rfl, rfl, rfl⟩,
      fun hg => absurd (h2.symm.trans hg) (by decide),
      fun hne _ => absurd h2 hne⟩
  · by_cases hg : paramToCommName c.comms = "all_gather"
    · have hrec2 : shrinkRealWorldSize "all_gather" curW c = some wrec := hg ▸ hrec
      exact ⟨_, prepCommsShrink_gather curW c i o wrec hg hrec2 hi ho,
        fun ha => absurd ha h2, fun _ => ⟨rfl, rfl⟩, fun _ hne => absurd hg hne⟩
    · exact ⟨_, prepCommsShrink_other curW c i o wrec hw hb h2 hg hrec hi ho,
        fun ha => absurd ha h2, fun ha => absurd ha hg, fun _ _ => ⟨rfl, rfl⟩⟩

/-- Witness for C3 at spec scenario S4: all_gather, recorded world 8, live
world 4, input 1024 → input 512 and output 2048 elements. -/
theorem c3_auto_shrink_rescale_witness :
    (∃ c', prepCommsShrink 4 c3wrec = some c' ∧
      (paramToCommName c3wrec.comms = "all_to_allv" →
        c'.inSplit = some ((c3wrec.inSplit.getD []).take 4) ∧
        c'.outSplit = some ((c3wrec.outSplit.getD []).take 4) ∧
        c'.inMsgSize = some (if 0 < ((c3wrec.inSplit.getD []).take 4).length
          then ((c3wrec.inSplit.getD []).take 4).sum else 1024 / 8 * 4) ∧
        c'.outMsgSize = some (if 0 < ((c3wrec.outSplit.getD []).take 4).length
          then ((c3wrec.outSplit.getD []).take 4).sum else 1024 / 8 * 4)) ∧
      (paramToCommName c3wrec.comms = "all_gather" →
        c'.inMsgSize = some (1024 / 8 * 4) ∧
        c'.outMsgSize = some (1024 / 8 * 4 * 4)) ∧
      (paramToCommName c3wrec.comms ≠ "all_to_allv" →
        paramToCommName c3wrec.comms ≠ "all_gather" →
        c'.inMsgSize = some (1024 / 8 * 4) ∧
        c'.outMsgSize = some (1024 / 8 * 4))) ∧
    (prepCommsShrink 4 c3wrec).map (fun c => (c.inMsgSize, c.outMsgSize)) =
      some (some 512, some 2048) :=
  ⟨c3_auto_shrink_rescale 4 c3wrec 1024 1024 8 (by decide) (by decide) rfl rfl rfl,
   by decide⟩

/-- C4 counterexample: all_to_allv with recorded world 8, live world 4 and
recorded in_split [1..8].  The truncated split is [1, 2, 3, 4] whose sum 10
becomes the allocated input count, and 10 is NOT divisible by the live world
size 4, refuting the divisibility half of the claim for dispatched
all_to_allv ops. -/
theorem c4_auto_shrink_invariant_counterexample :
    (prepCommsShrink 4 c4rec).map (fun c => (c.inMsgSize, c.inSplit)) =
      some (some 10, some [1, 2, 3, 4]) ∧ ¬(4 ∣ 10) := by decide

/-- C4 amended: with auto-shrink, for every sized dispatched op that is not
all_to_allv the allocated input count is divisible by the live world size;
for all_to_allv the input count equals the sum of the truncated in_split when
that split is non-empty (a sum that need not be divisible by the live world
size), and is divisible by the live world size when the truncated split is
empty. -/
theorem c4_auto_shrink_invariant (curW : Nat) (c c' : CommsArgs)
    (hw : paramToCommName c.comms ≠ "wait")
    (hb : paramToCommName c.comms ≠ "barrier")
    (h : prepCommsShrink curW c = some c') :
    (paramToCommName c.comms ≠ "all_to_allv" →
      ∃ n, c'.inMsgSize = some n ∧ curW ∣ n) ∧
    (paramToCommName c.comms = "all_to_allv" →
      ∃ l n, c'.inSplit = some l ∧ c'.inMsgSize = some n ∧
        (l ≠ [] → n = l.sum) ∧ (l = [] → curW ∣ n)) := by
  cases hrec : shrinkRealWorldSize (paramToCommName c.comms) curW c with
  | none =>
    have hnone : prepCommsShrink curW c = none := by
      simp [prepCommsShrink, hw, hb, hrec]
    rw [hnone] at h
    exact absurd h (by simp)
  | some realWS =>
    cases hi : c.inMsgSize with
    | none =>
      have hnone : prepCommsShrink curW c = none := by
        simp [prepCommsShrink, hw, hb, hrec, hi]
      rw [hnone] at h
      exact absurd h (by simp)
    | some i =>
      cases ho : c.outMsgSize with
      | none =>
        have hnone : prepCommsShrink curW c = none := by
          simp [prepCommsShrink, hw, hb, hrec, hi, ho]
        rw [hnone] at h
        exact absurd h (by simp)
      | some o =>
        by_cases h2 : paramToCommName c.comms = "all_to_allv"
        · rw [prepCommsShrink_a2av curW c i o realWS h2 (h2 ▸ hrec) hi ho] at h
          injection h with h
          subst h
          refine ⟨fun hne => absurd h2 hne, fun _ => ⟨_, _, rfl, rfl, ?_, ?_⟩⟩
          · intro hne
            rw [if_pos (List.length_pos.mpr hne)]
          · intro hnil
            rw [hnil]
            simp only [List.length_nil, lt_irrefl, if_false]
            exact dvd_mul_left curW (i / realWS)
        · by_cases hg : paramToCommName c.comms = "all_gather"
          · rw [prepCommsShrink_gather curW c i o realWS hg (hg ▸ hrec) hi ho] at h
            injection h with h
            subst h
            exact ⟨fun _ => ⟨_, rfl, dvd_mul_left curW (i / realWS)⟩,
              fun ha => absurd ha h2⟩
          · rw [prepCommsShrink_other curW c i o realWS hw hb h2 hg hrec hi ho] at h
            injection h with h
            subst h
            exact ⟨fun _ => ⟨_, rfl, dvd_mul_left curW (i / realWS)⟩,
              fun ha => absurd ha h2⟩

/-- Witness for C4 amended: all_reduce, recorded world 8, live world 4,
1030 elements → 512 elements, divisible by 4. -/
theorem c4_auto_shrink_invariant_witness :
    (paramToCommName c4wrec.comms ≠ "all_to_allv" →
      ∃ n, c4wres.inMsgSize = some n ∧ 4 ∣ n) ∧
    (paramToCommName c4wrec.comms = "all_to_allv" →
      ∃ l n, c4wres.inSplit = some l ∧ c4wres.inMsgSize = some n ∧
        (l ≠ [] → n = l.sum) ∧ (l = [] → 4 ∣ n)) :=
  c4_auto_shrink_invariant 4 c4wrec c4wres (by decide) (by decide) (by decide)

/-- C5 counterexample: with allow list ["exotic"] (a user-supplied
--allow-ops value passes unknown names through), op c5rec - a well-formed
record with sizes and dtype, so the normalizer emits it and prepComms
succeeds - is allowed and the local rank is in the default group, so per the
claim it should be dispatched; the replay does NOT dispatch it (unsupported
kind, runComms 667-671) yet DOES append a per-kind latency entry (line 783).
Furthermore the op c5sized is skipped (not allowed) but still contributes a
per-kind SIZE statistics entry in the first pass (initTraceStat 383-401). -/
theorem c5_skip_preserving_counterexample :
    replayTraceEvents ["exotic"] ["all_reduce", "wait"] false [(0, PG.default)] 0
        [c5rec, c5sized] =
      some [(c5rec, ⟨false, true⟩), (c5sized, ⟨false, false⟩)] ∧
    (paramToCommName c5rec.comms ∈ ["exotic"] ∧ groupRankOf 0 PG.default ≠ -1) ∧
    initTraceStatSizes [c5rec, c5sized] 2 = [("exotic", 8), ("all_reduce", 5)] := by
  decide

/-- C5 amended: an op is dispatched exactly when its kind is in the allow
list AND the local rank is in its group AND the backend supports the kind;
a per-kind latency entry is appended exactly when the op is allowed and the
rank is a member (so allowed member ops of unsupported kinds get a latency
entry without a dispatch); and every size-carrying op in the bounded trace
contributes to the first-pass per-kind size statistics regardless of allow
list or membership. -/
theorem c5_skip_preserving (allow supported : List String) (shrink : Bool)
    (groups : List (Nat × PG)) (globalRank : Nat) (trace : List CommsArgs)
    (evs : List (CommsArgs × OpOutcome))
    (h : replayTraceEvents allow supported shrink groups globalRank trace = some evs) :
    evs.map Prod.fst = trace ∧
    (∀ e ∈ evs, ∃ g, selectGroup shrink groups e.1.pgId = some g ∧
      (e.2.dispatched = true ↔ (paramToCommName e.1.comms ∈ allow ∧
        groupRankOf globalRank g ≠ -1 ∧ paramToCommName e.1.comms ∈ supported)) ∧
      (e.2.latencyRecorded = true ↔ (paramToCommName e.1.comms ∈ allow ∧
        groupRankOf globalRank g ≠ -1))) ∧
    (∀ (m : Nat) (tr2 : List CommsArgs) (c : CommsArgs) (i : Nat),
      c ∈ tr2.take m → c.inMsgSize = some i →
      (paramToCommName c.comms, i) ∈ initTraceStatSizes tr2 m) := by
  refine ⟨?_, ?_, ?_⟩
  · induction trace generalizing evs with
    | nil =>
      simp only [replayTraceEvents] at h
      injection h with h
      subst h
      rfl
    | cons c rest ih =>
      simp only [replayTraceEvents] at h
      cases hg : selectGroup shrink groups c.pgId with
      | none => rw [hg] at h; exact absurd h (by simp)
      | some g =>
        rw [hg] at h
        cases ht : replayTraceEvents allow supported shrink groups globalRank rest with
        | none => rw [ht] at h; exact absurd h (by simp)
        | some tail =>
          rw [ht] at h
          injection h with h
          subst h
          simp only [List.map_cons]
          rw [ih tail ht]
  · induction trace generalizing evs with
    | nil =>
      simp only [replayTraceEvents] at h
      injection h with h
      subst h
      intro e he
      exact absurd he (by simp)
    | cons c rest ih =>
      simp only [replayTraceEvents] at h
      cases hg : selectGroup shrink groups c.pgId with
      | none => rw [hg] at h; exact absurd h (by simp)
      | some g =>
        rw [hg] at h
        cases ht : replayTraceEvents allow supported shrink groups globalRank rest with
        | none => rw [ht] at h; exact absurd h (by simp)
        | some tail =>
          rw [ht] at h
          injection h with h
          subst h
          intro e he
          rcases List.mem_cons.mp he with rfl | hmem
          · refine ⟨g, hg, ?_, ?_⟩ <;>
              by_cases ha : paramToCommName c.comms ∈ allow <;>
              by_cases hr : groupRankOf globalRank g = -1 <;>
              simp [replayOpOutcome, ha, hr]
          · exact ih tail ht e hmem
  · intro m tr2 c i hc hin
    simp only [initTraceStatSizes, List.mem_filterMap]
    exact ⟨c, hc, by rw [hin]⟩

/-- Witness for C5 amended: one allowed, supported all_reduce on the default
group is dispatched with a latency entry. -/
theorem c5_skip_preserving_witness :
    ([(c5wrec, (⟨true, true⟩ : OpOutcome))].map Prod.fst = [c5wrec]) ∧
    (∀ e ∈ [(c5wrec, (⟨true, true⟩ : OpOutcome))],
      ∃ g, selectGroup false [(0, PG.default)] e.1.pgId = some g ∧
        (e.2.dispatched = true ↔ (paramToCommName e.1.comms ∈ ["all_reduce"] ∧
          groupRankOf 0 g ≠ -1 ∧ paramToCommName e.1.comms ∈ ["all_reduce"])) ∧
        (e.2.latencyRecorded = true ↔ (paramToCommName e.1.comms ∈ ["all_reduce"] ∧
          groupRankOf 0 g ≠ -1))) ∧
    (∀ (m : Nat) (tr2 : List CommsArgs) (c : CommsArgs) (i : Nat),
      c ∈ tr2.take m → c.inMsgSize = some i →
      (paramToCommName c.comms, i) ∈ initTraceStatSizes tr2 m) :=
  c5_skip_preserving ["all_reduce"] ["all_reduce"] false [(0, PG.default)] 0
    [c5wrec] [(c5wrec, ⟨true, true⟩)] (by decide)

/-- C1 counterexample: non-blocking replay of all_reduce(req 7),
all_reduce(req 8), wait(req 7).  The dispatch of the first op returns handle
0, but the wait carrying req 7 awaits NO handle at all (waitAwaited of every
step is empty): complete_accel_ops at the end of the second op's runComms
cleared the registry entry {7: handle 0}, so the claim's promised await of
handle 0 never happens. -/
theorem c1_wait_correlation_counterexample :
    ((runReplay false c1supported [c1A, c1B, c1W]).map
        (fun rs => (rs.map StepResult.retObj, rs.map StepResult.waitAwaited)) =
      some ([some (some 0), some (some 1), some none], [[], [], []])) ∧
    c1A.req = some 7 ∧ c1W.req = some 7 ∧ paramToCommName c1W.comms = "wait" := by
  decide

/-- C1 amended: in non-blocking replay the registry entry for a req id only
survives until the next op's completion step, so a wait op W with req id r
awaits exactly the handle of op A when A is the op replayed IMMEDIATELY
before W (A a supported collective-class op - one that runComms can actually
dispatch asynchronously for a handle - with req id r); and a wait carrying no
req id falls back to popping the oldest FIFO handle only when the id registry
is empty at its dispatch. -/
theorem c1_wait_correlation (supported : List String) (r seqA : Nat)
    (A W : CommsArgs) (s : AsyncState)
    (hAr : A.req = some r) (hWr : W.req = some r)
    (hWname : paramToCommName W.comms = "wait")
    (hWsup : paramToCommName W.comms ∈ supported)
    (hAsup : paramToCommName A.comms ∈ supported)
    (hAclass : dispatchClass (paramToCommName A.comms) = DispatchKind.collective) :
    (∃ rA, runCommsStep false supported seqA A s = some rA ∧
      rA.retObj = some (some seqA) ∧
      rA.state.waitObjIds = [(r, some seqA)] ∧
      ∃ rW, runCommsStep false supported (seqA + 1) W rA.state = some rW ∧
        rW.waitAwaited = [seqA]) ∧
    (∀ (s2 : AsyncState) (seqW : Nat) (W2 : CommsArgs), W2.req = none →
      paramToCommName W2.comms = "wait" → paramToCommName W2.comms ∈ supported →
      s2.waitObjIds = [] →
      ∃ rW2, runCommsStep false supported seqW W2 s2 = some rW2 ∧
        rW2.waitAwaited = s2.waitObj.take 1) := by
  have hAwait : paramToCommName A.comms ≠ "wait" := by
    intro hEq
    rw [hEq] at hAclass
    simp [dispatchClass] at hAclass
  constructor
  · have hstepA : runCommsStep false supported seqA A s =
        some ⟨⟨[], [(r, some seqA)], some r⟩, some (some seqA), [],
              s.waitObj ++ [seqA]⟩ := by
      simp [runCommsStep, hAr, hAsup, hAclass, hAwait, complete_accel_ops,
        insertAssoc, assocLookup]
    refine ⟨_, hstepA, rfl, rfl, ?_⟩
    have hWsup2 : "wait" ∈ supported := hWname ▸ hWsup
    refine ⟨⟨⟨[], [], some r⟩, some none, [seqA], []⟩, ?_, rfl⟩
    simp [runCommsStep, hWr, hWsup2, hWname, dispatchClass, backendWait,
      assocLookup, complete_accel_ops]
  · intro s2 seqW W2 h2req h2name h2sup h2ids
    have h2sup2 : "wait" ∈ supported := h2name ▸ h2sup
    cases hwo : s2.waitObj with
    | nil =>
      refine ⟨⟨⟨[], [], s2.collectiveId⟩, some none, [], []⟩, ?_, rfl⟩
      simp [runCommsStep, h2req, h2sup2, h2name, dispatchClass, backendWait,
        h2ids, complete_single_op, hwo, complete_accel_ops]
    | cons hh tt =>
      refine ⟨⟨⟨[], [], s2.collectiveId⟩, some none, [hh], tt⟩, ?_, rfl⟩
      simp [runCommsStep, h2req, h2sup2, h2name, dispatchClass, backendWait,
        h2ids, complete_single_op, hwo, complete_accel_ops]

/-- Witness for C1 amended: all_reduce(req 7) immediately followed by
wait(req 7), from the empty async state, awaits exactly handle 0. -/
theorem c1_wait_correlation_witness :
    (∃ rA, runCommsStep false c1supported 0 c1A ⟨[], [], none⟩ = some rA ∧
      rA.retObj = some (some 0) ∧
      rA.state.waitObjIds = [(7, some 0)] ∧
      ∃ rW, runCommsStep false c1supported (0 + 1) c1W rA.state = some rW ∧
        rW.waitAwaited = [0]) ∧
    (∀ (s2 : AsyncState) (seqW : Nat) (W2 : CommsArgs), W2.req = none →
      paramToCommName W2.comms = "wait" → paramToCommName W2.comms ∈ c1supported →
      s2.waitObjIds = [] →
      ∃ rW2, runCommsStep false c1supported seqW W2 s2 = some rW2 ∧
        rW2.waitAwaited = s2.waitObj.take 1) :=
  c1_wait_correlation c1supported 7 0 c1A c1W ⟨[], [], none⟩ rfl rfl (by decide)
    (by decide) (by decide) (by decide)

/-- Helper: after any single runCommsStep the id registry holds at most one
entry, because complete_accel_ops empties it and at most one insertion
follows. -/
theorem runCommsStep_ids_le_one (isB : Bool) (sup : List String) (seq : Nat)
    (c : CommsArgs) (s : AsyncState) (res : StepResult)
    (h : runCommsStep isB sup seq c s = some res) :
    res.state.waitObjIds.length ≤ 1 := by
  simp only [runCommsStep, complete_accel_ops] at h
  split at h
  · exact absurd h (by simp)
  · split at h
    · split at h
      · injection h with h
        subst h
        simp [insertAssoc, assocLookup]
      · exact absurd h (by simp)
    · injection h with h
      subst h
      simp

/-- Helper: the registry-size bound propagated along a whole replay. -/
theorem runReplayAux_ids_le_one (isB : Bool) (sup : List String) :
    ∀ (trace : List CommsArgs) (seq : Nat) (s : AsyncState) (rs : List StepResult),
      runReplayAux isB sup seq trace s = some rs →
      ∀ res ∈ rs, res.state.waitObjIds.length ≤ 1 := by
  intro trace
  induction trace with
  | nil =>
    intro seq s rs h res hres
    simp only [runReplayAux] at h
    injection h with h
    subst h
    exact absurd hres (by simp)
  | cons c rest ih =>
    intro seq s rs h res hres
    cases hstep : runCommsStep isB sup seq c s with
    | none =>
      simp only [runReplayAux, hstep] at h
      exact absurd h (by simp)
    | some r0 =>
      simp only [runReplayAux, hstep] at h
      cases htail : runReplayAux isB sup (seq + 1) rest r0.state with
      | none =>
        simp only [htail] at h
        exact absurd h (by simp)
      | some rs0 =>
        simp only [htail] at h
        injection h with h
        subst h
        rcases List.mem_cons.mp hres with rfl | hmem
        · exact runCommsStep_ids_le_one isB sup seq c s res hstep
        · exact ih (seq + 1) r0.state rs0 htail res hmem

/-- C10 (confirmed): complete_accel_ops waits on every handle in the FIFO and
then unconditionally clears both the FIFO and the id-keyed registry, whatever
the devSync flag; consequently, after each replayed op finishes its dispatch
step, the registry holds at most one entry (the one re-inserted for that op
after the clear). -/
theorem c10_complete_clears_registry :
    (∀ (s : AsyncState) (b : Bool),
      complete_accel_ops s b = ({ s with waitObj := [], waitObjIds := [] }, s.waitObj)) ∧
    (∀ (isBlocking : Bool) (supported : List String) (trace : List CommsArgs)
      (rs : List StepResult), runReplay isBlocking supported trace = some rs →
      ∀ res ∈ rs, res.state.waitObjIds.length ≤ 1) :=
  ⟨fun _ _ => rfl,
   fun isB sup trace rs h => runReplayAux_ids_le_one isB sup trace 0 {} rs h⟩

/-- Witness for C10 at a populated state and a concrete one-op replay. -/
theorem c10_complete_clears_registry_witness :
    (complete_accel_ops ⟨[5], [(3, some 4)], some 3⟩ false =
      ({ waitObj := [], waitObjIds := [], collectiveId := some 3 }, [5])) ∧
    ∀ res ∈ c10rs, res.state.waitObjIds.length ≤ 1 :=
  ⟨c10_complete_clears_registry.1 ⟨[5], [(3, some 4)], some 3⟩ false,
   c10_complete_clears_registry.2 false ["all_reduce", "wait"] [c10A] c10rs
     (by decide)⟩

end Param
